import Mathlib

/-!
Shallow embedding of the two UI components of this repository:
`src/components/GitHubRepoStats.jsx` and `src/components/Counter.jsx`.

The JavaScript source is translated as follows.

* Browser `localStorage` cells are modelled by `RawCell`: a cell may be
  absent (`getItem` returns `null`), unreadable (`getItem` throws), or hold
  a value whose `JSON.parse`/destructuring outcome is a `ParseOutcome`.
* `Date.now()` epoch-millisecond clock readings are `Int` values passed
  explicitly.
* A network response is an `HttpResponse` (`ok` flag, numeric `status`,
  parsed JSON body); the possibility that `fetch` itself rejects at the
  transport level is the `FetchOutcome.networkError` constructor.
* The `Promise.all` of the fetch cycle is modelled by `promiseAll`, which
  takes the per-identifier settled results in input order together with an
  arrival schedule `sched` (the temporal order in which the promises
  settle, as a list of indices): fulfilment yields the values in input
  order, rejection surfaces the error of the earliest-arriving rejection.
* The React state updates of the effect are modelled by `settle`, a pure
  function from the settled cycle result, the cancellation flag and the
  previous component state/store to the next component state/store.
* Rendering is modelled by `render`, producing one of the three views.
-/

/-! ## Cache layer (`readCache` / `writeCache`, lines 6-24) -/

/-- The repository summary projected from the GitHub API response body
(the object literal built in the `.then` of the effect, lines 56-67). -/
structure RepoSummary where
  id : String
  name : String
  full_name : String
  html_url : String
  description : Option String
  stargazers_count : Nat
  forks_count : Nat
  open_issues_count : Nat
  pushed_at : String
  language : Option String
deriving Repr, DecidableEq

/-- Outcome of `JSON.parse(raw)` followed by `const { at, data } = ...`:
either parsing throws (`malformed`), or it yields an `at` field (absent
`undefined` modelled as `none`) and a `data` field. -/
inductive ParseOutcome where
  | malformed : ParseOutcome
  | parsed (at_ : Option Int) (data : List RepoSummary) : ParseOutcome
deriving Repr, DecidableEq

/-- A `localStorage` cell as seen by `readCache`: `getItem` may throw
(`unreadable`), return `null` (`absent`), or return a string whose parse
outcome is recorded. -/
inductive RawCell where
  | unreadable : RawCell
  | absent : RawCell
  | value (v : ParseOutcome) : RawCell
deriving Repr, DecidableEq

/-- `const CACHE_TTL_MS = 10 * 60 * 1000;` -/
def CACHE_TTL_MS : Int := 10 * 60 * 1000

/-- `readCache(key)` (lines 8-18): returns the cached data unless the cell
is missing, unreadable, unparsable, its `at` field is falsy (`undefined`
or `0`), or `Date.now() - at > CACHE_TTL_MS`. `now` is the `Date.now()`
reading; the cell stands for `localStorage.getItem(key)`. -/
def readCache (now : Int) (cell : RawCell) : Option (List RepoSummary) :=
  match cell with
  | .unreadable => none
  | .absent => none
  | .value .malformed => none
  | .value (.parsed at_ data) =>
    match at_ with
    | none => none
    | some a => if a = 0 then none else if now - a > CACHE_TTL_MS then none else some data

/-- The persistent store: each key holds a `RawCell`. -/
def Store : Type := String → RawCell

/-- `writeCache(key, data)` (lines 20-24): stores
`JSON.stringify({ at: Date.now(), data })` under `key`; if `setItem`
throws (`writable = false`) the exception is swallowed and the store is
unchanged. -/
def writeCache (store : Store) (writable : Bool) (now : Int) (key : String)
    (data : List RepoSummary) : Store :=
  if writable then
    fun k => if k = key then RawCell.value (ParseOutcome.parsed (some now) data) else store k
  else store

/-! ## Fetching (`fetchRepo`, lines 26-33) -/

/-- The JSON body of a successful GitHub `/repos/{owner}/{name}` response,
restricted to the fields the component consumes. -/
structure RawRepo where
  name : String
  full_name : String
  html_url : String
  description : Option String
  stargazers_count : Nat
  forks_count : Nat
  open_issues_count : Nat
  pushed_at : String
  language : Option String
deriving Repr, DecidableEq

/-- An HTTP response: `res.ok`, `res.status`, and the parsed body. -/
structure HttpResponse where
  ok : Bool
  status : Nat
  body : RawRepo
deriving Repr, DecidableEq

/-- What `fetch` does for one identifier: either it resolves to a
response, or it rejects at the transport level with some error message. -/
inductive FetchOutcome where
  | response (res : HttpResponse) : FetchOutcome
  | networkError (msg : String) : FetchOutcome
deriving Repr, DecidableEq

/-- `fetchRepo(userRepo)` (lines 26-33): on a response with `!res.ok` it
throws `new Error(\x7b userRepo \x7d \x7b res.status \x7d)`; otherwise it
resolves with the body. A transport rejection propagates its message. -/
def fetchRepo (userRepo : String) (outcome : FetchOutcome) : Except String RawRepo :=
  match outcome with
  | .networkError msg => .error msg
  | .response res =>
    if res.ok then .ok res.body
    else .error (userRepo ++ " " ++ toString res.status)

/-- The projection applied in `.then((j) => ({ id: r, ... }))`
(lines 56-67). -/
def projectRepo (r : String) (j : RawRepo) : RepoSummary :=
  { id := r
    name := j.name
    full_name := j.full_name
    html_url := j.html_url
    description := j.description
    stargazers_count := j.stargazers_count
    forks_count := j.forks_count
    open_issues_count := j.open_issues_count
    pushed_at := j.pushed_at
    language := j.language }

/-! ## `Promise.all` and the fetch cycle (lines 53-84) -/

/-- The error of the earliest-arriving rejected promise: `rs` are the
settled per-identifier results in input order, `sched` is the arrival
order as a list of indices into `rs`. -/
def firstRejection (rs : List (Except String α)) (sched : List Nat) : Option String :=
  sched.findSome? fun i =>
    match rs.get? i with
    | some (Except.error e) => some e
    | _ => none

/-- `Promise.all`: fulfils with the values in input order when every
promise fulfils; otherwise rejects with the earliest-arriving rejection
(per `sched`). -/
def promiseAll (rs : List (Except String α)) (sched : List Nat) : Except String (List α) :=
  match rs.mapM Except.toOption with
  | some vs => Except.ok vs
  | none => Except.error ((firstRejection rs sched).getD "")

/-- A valid arrival schedule for `n` promises mentions every index. -/
def validSched (n : Nat) (sched : List Nat) : Prop :=
  ∀ i, i < n → i ∈ sched

instance (n : Nat) (sched : List Nat) : Decidable (validSched n sched) :=
  inferInstanceAs (Decidable (∀ i, i < n → i ∈ sched))

/-- The parallel fetch cycle of the effect (lines 54-69): one `fetchRepo`
per identifier, each projected to a `RepoSummary`, combined with
`Promise.all`. `env` gives the outcome of the single request issued for
each identifier. -/
def fetchCycle (repos : List String) (env : String → FetchOutcome)
    (sched : List Nat) : Except String (List RepoSummary) :=
  promiseAll (repos.map fun r => (fetchRepo r (env r)).map (projectRepo r)) sched

/-! ## Component state and settlement (lines 44-84) -/

/-- `FetchStatus`: the three values taken by the `status` state. -/
inductive FetchStatus where
  | loading : FetchStatus
  | ready : FetchStatus
  | error : FetchStatus
deriving Repr, DecidableEq

/-- The three `useState` hooks of `GitHubRepoStats`: `items`, `status`,
`error` (lines 46-48). -/
structure ComponentState where
  items : Option (List RepoSummary)
  status : FetchStatus
  error : Option String
deriving Repr, DecidableEq

/-- `gh:repos:\x7b repos.join(",") \x7d` — the `Array.prototype.join(",")`
part (line 45). -/
def joinComma : List String → String
  | [] => ""
  | [r] => r
  | r :: rest@(_ :: _) => r ++ "," ++ joinComma rest

/-- The memoised cache key (line 45). -/
def cacheKey (repos : List String) : String :=
  "gh:repos:" ++ joinComma repos

/-- The initial state of the hooks (lines 46-48): `items` from
`readCache(cacheKey)`, `status` is `"ready"` when `items` is truthy (a
non-null array) and `"loading"` otherwise, `error` starts `null`. -/
def initState (now : Int) (cell : RawCell) : ComponentState :=
  let items := readCache now cell
  { items := items
    status := if items.isSome then FetchStatus.ready else FetchStatus.loading
    error := none }

/-- Settlement of the fetch cycle (lines 70-83): when the cancellation
flag is set, nothing happens; on fulfilment `setItems`, `writeCache` and
`setStatus("ready")` run; on rejection `setError(String(e.message))` and
`setStatus("error")` run. Returns the next component state and store. -/
def settle (cancelled : Bool) (key : String) (now : Int) (writable : Bool)
    (result : Except String (List RepoSummary))
    (st : ComponentState) (store : Store) : ComponentState × Store :=
  if cancelled then (st, store)
  else
    match result with
    | .ok results =>
      ({ items := some results, status := FetchStatus.ready, error := st.error },
       writeCache store writable now key results)
    | .error e =>
      ({ items := st.items, status := FetchStatus.error, error := some e }, store)

/-! ## Rendering (lines 86-151) -/

/-- One fallback badge of the error view (lines 94-98): the anchor `href`
and the shields.io image `src` for an identifier. -/
def fallbackBadge (r : String) : String × String :=
  ("https://github.com/" ++ r, "https://img.shields.io/github/stars/" ++ r ++ "?style=flat")

/-- `compact(n)` (lines 35-38): the `Intl.NumberFormat` compact formatter
is environment-provided; when it throws (`fmt n = none`) the fallback is
`String(n)`. -/
def compact (fmt : Nat → Option String) (n : Nat) : String :=
  match fmt n with
  | some s => s
  | none => toString n

/-- One card of the ready grid (lines 110-148): link target, title,
optional language tag, optional description, the three compact-formatted
counts, and the raw push timestamp feeding the localized date. -/
structure Card where
  href : String
  title : String
  language : Option String
  description : Option String
  stars : String
  forks : String
  issues : String
  pushed_at : String
deriving Repr, DecidableEq

/-- The card rendered for one `RepoSummary` (lines 110-148). -/
def renderCard (fmt : Nat → Option String) (it : RepoSummary) : Card :=
  { href := it.html_url
    title := it.name
    language := it.language
    description := it.description
    stars := compact fmt it.stargazers_count
    forks := compact fmt it.forks_count
    issues := compact fmt it.open_issues_count
    pushed_at := it.pushed_at }

/-- The rendered view: loading placeholder, error view (message text and
one fallback badge per identifier), or the card grid. -/
inductive RenderView where
  | loadingView : RenderView
  | errorView (msg : String) (badges : List (String × String)) : RenderView
  | gridView (cards : List Card) : RenderView
deriving Repr, DecidableEq

/-- The render function (lines 86-151): branches only on `status`; the
error view shows `GitHub API error: \x7b error \x7d` and maps the input
identifier list to badges; the ready view maps `items` (nothing when
`items` is null, per `items?.map`) to cards. -/
def render (fmt : Nat → Option String) (repos : List String)
    (st : ComponentState) : RenderView :=
  match st.status with
  | .loading => RenderView.loadingView
  | .error =>
    RenderView.errorView ("GitHub API error: " ++ (st.error.getD ""))
      (repos.map fallbackBadge)
  | .ready => RenderView.gridView (((st.items.getD []).map (renderCard fmt)))

/-! ## `Counter` (`src/components/Counter.jsx`) -/

/-- `useState(0)` — the initial counter state. -/
def counterInit : Nat := 0

/-- `onClick=\x7b () => setN(n + 1) \x7d` — one user activation. -/
def counterClick (n : Nat) : Nat := n + 1

/-- The button label `Count: \x7b n \x7d`. -/
def counterRender (n : Nat) : String := "Count: " ++ toString n

/-! ## Helper lemmas -/

/-- Whether the `fetch` for one identifier succeeds: a response arrived
and `res.ok` holds. -/
def FetchOutcome.succeeds : FetchOutcome → Bool
  | .response res => res.ok
  | .networkError _ => false

/-- A string free of commas (the separator of `Array.prototype.join(",")`). -/
def noComma (s : String) : Prop := ',' ∉ s.data

instance (s : String) : Decidable (noComma s) := by
  unfold noComma; infer_instance

theorem fetchRepo_ok_of_succeeds (r : String) (o : FetchOutcome)
    (h : o.succeeds = true) : ∃ b, fetchRepo r o = Except.ok b := by
  cases o with
  | response res =>
    refine ⟨res.body, ?_⟩
    simp only [FetchOutcome.succeeds] at h
    simp [fetchRepo, h]
  | networkError msg => simp [FetchOutcome.succeeds] at h

theorem fetchRepo_error_of_fails (r : String) (o : FetchOutcome)
    (h : o.succeeds = false) : ∃ e, fetchRepo r o = Except.error e := by
  cases o with
  | response res =>
    refine ⟨r ++ " " ++ toString res.status, ?_⟩
    simp only [FetchOutcome.succeeds] at h
    simp [fetchRepo, h]
  | networkError msg => exact ⟨msg, rfl⟩

theorem fetchResults_mapM_ok (env : String → FetchOutcome) :
    ∀ repos : List String, (∀ r ∈ repos, (env r).succeeds = true) →
    ∃ l, ((repos.map fun r => (fetchRepo r (env r)).map (projectRepo r)).mapM Except.toOption
        = some l) ∧ l.map RepoSummary.id = repos := by
  intro repos
  induction repos with
  | nil => exact fun _ => ⟨[], rfl, rfl⟩
  | cons a t ih =>
    intro h
    obtain ⟨b, hb⟩ := fetchRepo_ok_of_succeeds a (env a) (h a (List.mem_cons_self a t))
    obtain ⟨lt, hlt, hid⟩ := ih fun x hx => h x (List.mem_cons_of_mem a hx)
    refine ⟨projectRepo a b :: lt, ?_, ?_⟩
    · rw [List.map_cons, List.mapM_cons, hb, hlt]
      rfl
    · rw [List.map_cons, hid]
      rfl

theorem mapM_toOption_eq_none {β : Type} (rs : List (Except String β)) (e : String)
    (h : Except.error e ∈ rs) : rs.mapM Except.toOption = none := by
  induction rs with
  | nil => simp at h
  | cons a t ih =>
    rw [List.mapM_cons]
    rcases List.mem_cons.mp h with h1 | h2
    · subst h1
      rfl
    · rw [ih h2]
      cases a.toOption <;> rfl

theorem findSome?_eq_of_unique {β : Type} (f : Nat → Option β) (v : β) (j : Nat)
    (hf : f j = some v) (huniq : ∀ i, i ≠ j → f i = none) :
    ∀ l : List Nat, j ∈ l → l.findSome? f = some v := by
  intro l
  induction l with
  | nil => simp
  | cons a t ih =>
    intro hmem
    rw [List.findSome?_cons]
    by_cases haj : a = j
    · subst haj; rw [hf]
    · rw [huniq a haj]
      exact ih ((List.mem_cons.mp hmem).resolve_left fun hh => haj hh.symm)

theorem promiseAll_ok {α : Type} (rs : List (Except String α)) (sched : List Nat)
    (l : List α) (h : rs.mapM Except.toOption = some l) :
    promiseAll rs sched = Except.ok l := by
  unfold promiseAll
  rw [h]

theorem promiseAll_error {α : Type} (rs : List (Except String α)) (sched : List Nat)
    (h : rs.mapM Except.toOption = none) :
    promiseAll rs sched = Except.error ((firstRejection rs sched).getD "") := by
  unfold promiseAll
  rw [h]

/-- A concrete response body used to instantiate theorems at concrete
inputs. -/
def sampleRaw : RawRepo :=
  { name := "bar"
    full_name := "foo/bar"
    html_url := "https://github.com/foo/bar"
    description := none
    stargazers_count := 1234
    forks_count := 56
    open_issues_count := 3
    pushed_at := "2024-01-01T00:00:00Z"
    language := some "Go" }

/-! ## Claim theorems -/

/-- C5: when the cancellation flag is set before the cycle settles, the
settlement — success or failure alike — performs no state update and no
cache write: the component state and the persistent store are returned
unchanged. -/
theorem cancelled_settlement_is_noop (key : String) (now : Int) (writable : Bool)
    (result : Except String (List RepoSummary)) (st : ComponentState) (store : Store) :
    settle true key now writable result st store = (st, store) := rfl

/-- C7: a corrupt or inaccessible cache entry — unreadable storage,
unparsable JSON, or a missing `at` timestamp — makes `readCache` return
`null` (a silent cache miss), and `writeCache` never throws: when the
store rejects the write the exception is swallowed and the store is
returned unchanged. -/
theorem storage_errors_are_silent_cache_miss (now : Int) (d : List RepoSummary)
    (store : Store) (key : String) (data : List RepoSummary) :
    readCache now RawCell.unreadable = none ∧
    readCache now RawCell.absent = none ∧
    readCache now (RawCell.value ParseOutcome.malformed) = none ∧
    readCache now (RawCell.value (ParseOutcome.parsed none d)) = none ∧
    writeCache store false now key data = store :=
  ⟨rfl, rfl, rfl, rfl, rfl⟩

/-- C8: `compact` returns the locale-aware compact rendering that the
formatter produces for `n` when the formatter is available, and falls
back to the plain digit
string `String(n)` when the formatter throws; being a total function of
the embedding, it never raises. -/
theorem compact_formats_or_falls_back (fmt : Nat → Option String) (n : Nat) :
    (∀ s, fmt n = some s → compact fmt n = s) ∧
    (fmt n = none → compact fmt n = toString n) := by
  constructor
  · intro s hs
    unfold compact
    rw [hs]
  · intro hn
    unfold compact
    rw [hn]

/-- C8 witness: `compact` at a formatter that yields `"1.2K"` for `1234`,
and at one that throws, where it falls back to `"1234"`. -/
theorem compact_formats_or_falls_back_witness :
    compact (fun _ => some "1.2K") 1234 = "1.2K" ∧
    compact (fun _ => none) 1234 = "1234" :=
  ⟨(compact_formats_or_falls_back (fun _ => some "1.2K") 1234).1 "1.2K" rfl,
   (compact_formats_or_falls_back (fun _ => none) 1234).2 rfl⟩

/-- C9: `Counter` holds one non-negative integer (a `Nat`) initialised to
`0`, renders `"Count: 0"` initially, replaces `n` with `n + 1` on each
activation (rendering `"Count: 1"` after one), and a remount restarts
from `counterInit = 0` independently of any previous state `n`. -/
theorem counter_behaviour (n : Nat) :
    counterInit = 0 ∧
    counterRender counterInit = "Count: 0" ∧
    counterClick n = n + 1 ∧
    counterRender (counterClick counterInit) = "Count: 1" ∧
    counterInit ≤ counterClick n :=
  ⟨rfl, by decide, rfl, by decide, Nat.zero_le _⟩

/-- C10: a non-cancelled failed cycle mutates only `error` and `status`:
`items` keeps its previous value and the store is unchanged; moreover no
cache write happens on a failed cycle whatever the cancellation flag, so
the persistent entry under the current key is untouched. -/
theorem error_settlement_frame (key : String) (now : Int) (writable : Bool)
    (e : String) (st : ComponentState) (store : Store) :
    (settle false key now writable (Except.error e) st store).1.items = st.items ∧
    (settle false key now writable (Except.error e) st store).1.status = FetchStatus.error ∧
    (settle false key now writable (Except.error e) st store).1.error = some e ∧
    (settle false key now writable (Except.error e) st store).2 = store ∧
    ∀ c : Bool, (settle c key now writable (Except.error e) st store).2 = store := by
  refine ⟨rfl, rfl, rfl, rfl, ?_⟩
  intro c
  cases c <;> rfl

/-- C1: when every per-identifier fetch succeeds, the settled items list
has exactly one `RepoSummary` per identifier in input order — whatever
the arrival schedule — and the non-cancelled settlement stores it in
state with status `ready`, rendering one card per identifier in that
order. -/
theorem fetch_cycle_preserves_input_order
    (repos : List String) (env : String → FetchOutcome) (sched : List Nat)
    (key : String) (now : Int) (writable : Bool) (st : ComponentState) (store : Store)
    (fmt : Nat → Option String)
    (h : ∀ r ∈ repos, (env r).succeeds = true) :
    ∃ l : List RepoSummary,
      fetchCycle repos env sched = Except.ok l ∧
      l.map RepoSummary.id = repos ∧
      l.length = repos.length ∧
      (settle false key now writable (fetchCycle repos env sched) st store).1.items = some l ∧
      (settle false key now writable (fetchCycle repos env sched) st store).1.status
        = FetchStatus.ready ∧
      render fmt repos (settle false key now writable (fetchCycle repos env sched) st store).1
        = RenderView.gridView (l.map (renderCard fmt)) := by
  obtain ⟨l, hmap, hid⟩ := fetchResults_mapM_ok env repos h
  have hcycle : fetchCycle repos env sched = Except.ok l := promiseAll_ok _ sched l hmap
  have hlen : l.length = repos.length := by
    have := congrArg List.length hid
    simpa using this
  refine ⟨l, hcycle, hid, hlen, ?_, ?_, ?_⟩
  · rw [hcycle]
    rfl
  · rw [hcycle]
    rfl
  · rw [hcycle]
    rfl

/-- C1 witness: one successful identifier, schedule `[0]`. -/
theorem fetch_cycle_preserves_input_order_witness :
    ∃ l : List RepoSummary,
      fetchCycle ["foo/bar"] (fun _ => FetchOutcome.response ⟨true, 200, sampleRaw⟩) [0]
        = Except.ok l ∧
      l.map RepoSummary.id = ["foo/bar"] ∧
      l.length = (["foo/bar"] : List String).length ∧
      (settle false "gh:repos:foo/bar" 0 true
        (fetchCycle ["foo/bar"] (fun _ => FetchOutcome.response ⟨true, 200, sampleRaw⟩) [0])
        ⟨none, FetchStatus.loading, none⟩ (fun _ => RawCell.absent)).1.items = some l ∧
      (settle false "gh:repos:foo/bar" 0 true
        (fetchCycle ["foo/bar"] (fun _ => FetchOutcome.response ⟨true, 200, sampleRaw⟩) [0])
        ⟨none, FetchStatus.loading, none⟩ (fun _ => RawCell.absent)).1.status
        = FetchStatus.ready ∧
      render (fun _ => none) ["foo/bar"]
        (settle false "gh:repos:foo/bar" 0 true
          (fetchCycle ["foo/bar"] (fun _ => FetchOutcome.response ⟨true, 200, sampleRaw⟩) [0])
          ⟨none, FetchStatus.loading, none⟩ (fun _ => RawCell.absent)).1
        = RenderView.gridView (l.map (renderCard (fun _ => none))) :=
  fetch_cycle_preserves_input_order ["foo/bar"]
    (fun _ => FetchOutcome.response ⟨true, 200, sampleRaw⟩) [0]
    "gh:repos:foo/bar" 0 true ⟨none, FetchStatus.loading, none⟩ (fun _ => RawCell.absent)
    (fun _ => none) (by decide)

/-- C2: if at least one per-identifier fetch fails, the non-cancelled
settlement makes the whole cycle fail: status becomes `error`, the store
is untouched, and the rendered view is the error view with one fallback
badge per input identifier — never the card grid, so none of the
successful data is rendered. -/
theorem single_failure_degrades_batch
    (repos : List String) (env : String → FetchOutcome) (sched : List Nat)
    (key : String) (now : Int) (writable : Bool) (st : ComponentState) (store : Store)
    (fmt : Nat → Option String) (r0 : String)
    (hr0 : r0 ∈ repos) (hfail : (env r0).succeeds = false) :
    ∃ e : String,
      fetchCycle repos env sched = Except.error e ∧
      (settle false key now writable (fetchCycle repos env sched) st store).1.status
        = FetchStatus.error ∧
      (settle false key now writable (fetchCycle repos env sched) st store).2 = store ∧
      render fmt repos (settle false key now writable (fetchCycle repos env sched) st store).1
        = RenderView.errorView ("GitHub API error: " ++ e) (repos.map fallbackBadge) ∧
      ∀ cards,
        render fmt repos (settle false key now writable (fetchCycle repos env sched) st store).1
          ≠ RenderView.gridView cards := by
  obtain ⟨e0, he0⟩ := fetchRepo_error_of_fails r0 (env r0) hfail
  have hFr0 : ((fetchRepo r0 (env r0)).map (projectRepo r0)) = Except.error e0 := by
    rw [he0]; rfl
  have hmem : Except.error e0
      ∈ repos.map (fun r => (fetchRepo r (env r)).map (projectRepo r)) := by
    rw [← hFr0]
    exact List.mem_map_of_mem _ hr0
  have hnone := mapM_toOption_eq_none _ e0 hmem
  have hcycle : fetchCycle repos env sched
      = Except.error ((firstRejection
          (repos.map fun r => (fetchRepo r (env r)).map (projectRepo r)) sched).getD "") :=
    promiseAll_error _ sched hnone
  refine ⟨_, hcycle, ?_, ?_, ?_, ?_⟩
  · rw [hcycle]
    rfl
  · rw [hcycle]
    rfl
  · rw [hcycle]
    rfl
  · rw [hcycle]
    intro cards heq
    simp [render, settle] at heq

/-- C2 witness: two identifiers, the second failing with HTTP 404,
schedule `[0, 1]`. -/
theorem single_failure_degrades_batch_witness :
    ∃ e : String,
      fetchCycle ["a/b", "c/d"]
        (fun r => if r = "c/d" then FetchOutcome.response ⟨false, 404, sampleRaw⟩
                  else FetchOutcome.response ⟨true, 200, sampleRaw⟩) [0, 1]
        = Except.error e ∧
      (settle false "gh:repos:a/b,c/d" 0 true
        (fetchCycle ["a/b", "c/d"]
          (fun r => if r = "c/d" then FetchOutcome.response ⟨false, 404, sampleRaw⟩
                    else FetchOutcome.response ⟨true, 200, sampleRaw⟩) [0, 1])
        ⟨none, FetchStatus.loading, none⟩ (fun _ => RawCell.absent)).1.status
        = FetchStatus.error ∧
      (settle false "gh:repos:a/b,c/d" 0 true
        (fetchCycle ["a/b", "c/d"]
          (fun r => if r = "c/d" then FetchOutcome.response ⟨false, 404, sampleRaw⟩
                    else FetchOutcome.response ⟨true, 200, sampleRaw⟩) [0, 1])
        ⟨none, FetchStatus.loading, none⟩ (fun _ => RawCell.absent)).2
        = (fun _ => RawCell.absent) ∧
      render (fun _ => none) ["a/b", "c/d"]
        (settle false "gh:repos:a/b,c/d" 0 true
          (fetchCycle ["a/b", "c/d"]
            (fun r => if r = "c/d" then FetchOutcome.response ⟨false, 404, sampleRaw⟩
                      else FetchOutcome.response ⟨true, 200, sampleRaw⟩) [0, 1])
          ⟨none, FetchStatus.loading, none⟩ (fun _ => RawCell.absent)).1
        = RenderView.errorView ("GitHub API error: " ++ e)
            (["a/b", "c/d"].map fallbackBadge) ∧
      ∀ cards,
        render (fun _ => none) ["a/b", "c/d"]
          (settle false "gh:repos:a/b,c/d" 0 true
            (fetchCycle ["a/b", "c/d"]
              (fun r => if r = "c/d" then FetchOutcome.response ⟨false, 404, sampleRaw⟩
                        else FetchOutcome.response ⟨true, 200, sampleRaw⟩) [0, 1])
            ⟨none, FetchStatus.loading, none⟩ (fun _ => RawCell.absent)).1
          ≠ RenderView.gridView cards :=
  single_failure_degrades_batch ["a/b", "c/d"]
    (fun r => if r = "c/d" then FetchOutcome.response ⟨false, 404, sampleRaw⟩
              else FetchOutcome.response ⟨true, 200, sampleRaw⟩) [0, 1]
    "gh:repos:a/b,c/d" 0 true ⟨none, FetchStatus.loading, none⟩ (fun _ => RawCell.absent)
    (fun _ => none) "c/d" (by decide) (by decide)

/-- C4: a `fetchRepo` given a response fails exactly when the response
has a non-success status, and then its error message is the identifier
followed by a space and the status code; in the concrete scenario
`["a/b", "c/d"]` with only the second request returning HTTP 404, the
cycle surfaces the error `"c/d 404"` whatever valid arrival schedule the
responses took. -/
theorem fetch_error_carries_identifier_and_status
    (r : String) (res : HttpResponse) (s1 : RawRepo) (sched : List Nat)
    (hsched : validSched 2 sched) :
    ((∃ e, fetchRepo r (FetchOutcome.response res) = Except.error e) ↔ res.ok = false) ∧
    (res.ok = false →
      fetchRepo r (FetchOutcome.response res)
        = Except.error (r ++ " " ++ toString res.status)) ∧
    fetchCycle ["a/b", "c/d"]
      (fun x => if x = "c/d" then FetchOutcome.response ⟨false, 404, s1⟩
                else FetchOutcome.response ⟨true, 200, s1⟩) sched
      = Except.error "c/d 404" := by
  refine ⟨?_, ?_, ?_⟩
  · by_cases hok : res.ok
    · simp [fetchRepo, hok]
    · simp [fetchRepo, hok]
  · intro hok
    simp [fetchRepo, hok]
  · have hrs : (["a/b", "c/d"].map fun x =>
        (fetchRepo x ((fun x => if x = "c/d" then FetchOutcome.response ⟨false, 404, s1⟩
                       else FetchOutcome.response ⟨true, 200, s1⟩) x)).map (projectRepo x))
        = [Except.ok (projectRepo "a/b" s1), Except.error "c/d 404"] := by
      have hstr : ("c/d" ++ " " ++ toString (404 : Nat)) = "c/d 404" := by decide
      simp only [List.map_cons, List.map_nil]
      rw [if_neg (by decide : ¬("a/b" : String) = "c/d"), if_pos trivial, ← hstr]
      rfl
    show promiseAll _ sched = _
    rw [hrs]
    have hnone : ([Except.ok (projectRepo "a/b" s1),
        Except.error "c/d 404"]).mapM Except.toOption = none :=
      mapM_toOption_eq_none _ "c/d 404" (by simp)
    rw [promiseAll_error _ sched hnone]
    have hfirst : firstRejection
        [Except.ok (projectRepo "a/b" s1), Except.error "c/d 404"] sched
        = some "c/d 404" := by
      unfold firstRejection
      refine findSome?_eq_of_unique _ "c/d 404" 1 rfl ?_ sched (hsched 1 (by norm_num))
      intro i hi
      match i with
      | 0 => rfl
      | 1 => exact absurd rfl hi
      | Nat.succ (Nat.succ n) => rfl
    rw [hfirst]
    rfl

/-- C4 witness: a failing response with status 500 for `"e/f"`, and the
two-identifier 404 scenario at the schedule `[1, 0]`. -/
theorem fetch_error_carries_identifier_and_status_witness :
    ((∃ e, fetchRepo "e/f" (FetchOutcome.response ⟨false, 500, sampleRaw⟩)
        = Except.error e) ↔ (⟨false, 500, sampleRaw⟩ : HttpResponse).ok = false) ∧
    ((⟨false, 500, sampleRaw⟩ : HttpResponse).ok = false →
      fetchRepo "e/f" (FetchOutcome.response ⟨false, 500, sampleRaw⟩)
        = Except.error ("e/f" ++ " " ++ toString (⟨false, 500, sampleRaw⟩ : HttpResponse).status)) ∧
    fetchCycle ["a/b", "c/d"]
      (fun x => if x = "c/d" then FetchOutcome.response ⟨false, 404, sampleRaw⟩
                else FetchOutcome.response ⟨true, 200, sampleRaw⟩) [1, 0]
      = Except.error "c/d 404" :=
  fetch_error_carries_identifier_and_status "e/f" ⟨false, 500, sampleRaw⟩ sampleRaw [1, 0]
    (by decide)

/-- Splitting at a separator character absent from both prefixes is
unambiguous. -/
theorem append_sep_inj (c : Char) (xs : List Char) :
    ∀ (xs' ys ys' : List Char), c ∉ xs → c ∉ xs' →
    xs ++ c :: ys = xs' ++ c :: ys' → xs = xs' ∧ ys = ys' := by
  induction xs with
  | nil =>
    intro xs' ys ys' _ hx' h
    cases xs' with
    | nil => simpa using h
    | cons a t =>
      rw [List.nil_append, List.cons_append, List.cons.injEq] at h
      exact absurd (h.1 ▸ List.mem_cons_self a t) hx'
  | cons a t ih =>
    intro xs' ys ys' hx hx' h
    cases xs' with
    | nil =>
      rw [List.cons_append, List.nil_append, List.cons.injEq] at h
      exact absurd (h.1 ▸ List.mem_cons_self a t) hx
    | cons b t' =>
      rw [List.cons_append, List.cons_append, List.cons.injEq] at h
      obtain ⟨h1, h2⟩ := h
      obtain ⟨ht, hy⟩ := ih t' ys ys'
        (fun hc => hx (List.mem_cons_of_mem a hc))
        (fun hc => hx' (List.mem_cons_of_mem b hc)) h2
      exact ⟨by rw [h1, ht], hy⟩

theorem joinComma_data_cons (a b : String) (t : List String) :
    (joinComma (a :: b :: t)).data = a.data ++ ',' :: (joinComma (b :: t)).data := by
  have h : joinComma (a :: b :: t) = a ++ "," ++ joinComma (b :: t) := by
    simp [joinComma]
  rw [h, String.data_append, String.data_append]
  simp

/-- `Array.prototype.join(",")` is injective on equal-length lists of
comma-free strings. -/
theorem joinComma_inj (l1 : List String) :
    ∀ l2 : List String, (∀ s ∈ l1, noComma s) → (∀ s ∈ l2, noComma s) →
    l1.length = l2.length → joinComma l1 = joinComma l2 → l1 = l2 := by
  induction l1 with
  | nil =>
    intro l2 _ _ hlen _
    cases l2 with
    | nil => rfl
    | cons b t2 => simp at hlen
  | cons a t ih =>
    intro l2 h1 h2 hlen hj
    cases l2 with
    | nil => simp at hlen
    | cons b t2 =>
      cases t with
      | nil =>
        cases t2 with
        | nil =>
          rw [show joinComma [a] = a from by simp [joinComma],
            show joinComma [b] = b from by simp [joinComma]] at hj
          rw [hj]
        | cons c tt2 => simp at hlen
      | cons c tt =>
        cases t2 with
        | nil => simp at hlen
        | cons d tt2 =>
          have hd := congrArg String.data hj
          rw [joinComma_data_cons, joinComma_data_cons] at hd
          have hna : ',' ∉ a.data := h1 a (List.mem_cons_self a _)
          have hnb : ',' ∉ b.data := h2 b (List.mem_cons_self b _)
          obtain ⟨hab, hrest⟩ := append_sep_inj ',' a.data b.data _ _ hna hnb hd
          have hae : a = b := String.ext hab
          have hjoin : joinComma (c :: tt) = joinComma (d :: tt2) := String.ext hrest
          have htail := ih (d :: tt2)
            (fun s hs => h1 s (List.mem_cons_of_mem a hs))
            (fun s hs => h2 s (List.mem_cons_of_mem b hs))
            (by simpa using hlen) hjoin
          rw [hae, htail]

/-- C3 (amended): for an entry that exists, parses and has a truthy
(nonzero) timestamp `t`, `readCache` returns its data exactly when the
age `now - t` is within the 10-minute time-to-live; a stale entry reads
as absent; and the initial component state is `ready` with the cached
data exactly when `readCache` returns data, `loading` otherwise. -/
theorem readCache_ttl_and_initial_state (now t : Int) (data : List RepoSummary)
    (ht : t ≠ 0) :
    (readCache now (RawCell.value (ParseOutcome.parsed (some t) data)) = some data
      ↔ now - t ≤ CACHE_TTL_MS) ∧
    (now - t > CACHE_TTL_MS →
      readCache now (RawCell.value (ParseOutcome.parsed (some t) data)) = none) ∧
    (∀ (cell : RawCell) (d : List RepoSummary), readCache now cell = some d →
      initState now cell = ⟨some d, FetchStatus.ready, none⟩) ∧
    (∀ cell : RawCell, readCache now cell = none →
      initState now cell = ⟨none, FetchStatus.loading, none⟩) := by
  refine ⟨?_, ?_, ?_, ?_⟩
  · by_cases h : now - t > CACHE_TTL_MS
    · simp [readCache, ht, h]
      omega
    · simp [readCache, ht, h]
      omega
  · intro h
    simp [readCache, ht, h]
  · intro cell d h
    simp [initState, h]
  · intro cell h
    simp [initState, h]

/-- C3 counterexample: an entry that exists, parses, and has age `0`
(within the time-to-live) but timestamp `0` is nevertheless treated as
absent by the falsy `!at` check, and the initial status is `loading`, not
`ready`. -/
theorem readCache_zero_timestamp_counterexample :
    readCache 0 (RawCell.value (ParseOutcome.parsed (some 0) [])) = none ∧
    (0 : Int) - 0 ≤ CACHE_TTL_MS ∧
    (initState 0 (RawCell.value (ParseOutcome.parsed (some 0) []))).status
      = FetchStatus.loading := by
  refine ⟨rfl, by decide, rfl⟩

/-- C3 witness: a fresh entry with timestamp `600` read at time `1000`. -/
theorem readCache_ttl_and_initial_state_witness :
    readCache 1000 (RawCell.value (ParseOutcome.parsed (some 600) [])) = some []
      ↔ (1000 : Int) - 600 ≤ CACHE_TTL_MS :=
  (readCache_ttl_and_initial_state 1000 600 [] (by decide)).1

/-- C6 (amended): the cache key is `gh:repos:` followed by the
comma-joined identifier list; a successful cycle persists
`\x7b at: now, data \x7d` under it; and the key is order-sensitive for
comma-free identifiers: two distinct permutations of the same comma-free
identifier list give different keys (identifiers containing a comma can
collide). -/
theorem cache_key_shape_and_order_sensitivity
    (repos l1 l2 : List String) (store : Store) (now : Int) (data : List RepoSummary)
    (hperm : l1.Perm l2) (hne : l1 ≠ l2)
    (hc1 : ∀ s ∈ l1, noComma s) (hc2 : ∀ s ∈ l2, noComma s) :
    cacheKey repos = "gh:repos:" ++ joinComma repos ∧
    writeCache store true now (cacheKey repos) data (cacheKey repos)
      = RawCell.value (ParseOutcome.parsed (some now) data) ∧
    cacheKey l1 ≠ cacheKey l2 := by
  refine ⟨rfl, ?_, ?_⟩
  · simp [writeCache]
  · intro hkey
    apply hne
    have hdata := congrArg String.data hkey
    rw [show cacheKey l1 = "gh:repos:" ++ joinComma l1 from rfl,
      show cacheKey l2 = "gh:repos:" ++ joinComma l2 from rfl,
      String.data_append, String.data_append] at hdata
    have hjoin : joinComma l1 = joinComma l2 :=
      String.ext (List.append_cancel_left hdata)
    exact joinComma_inj l1 l2 hc1 hc2 hperm.length_eq hjoin

/-- C6 counterexample: the two distinct lists `["a", "a,a"]` and
`["a,a", "a"]` are permutations of each other (the same identifiers in a
different order) yet produce the same cache key `gh:repos:a,a,a`. -/
theorem cache_key_collision_counterexample :
    cacheKey ["a", "a,a"] = cacheKey ["a,a", "a"] ∧
    List.Perm ["a", "a,a"] ["a,a", "a"] ∧
    (["a", "a,a"] : List String) ≠ ["a,a", "a"] := by
  refine ⟨?_, List.Perm.swap "a,a" "a" [], by decide⟩
  show "gh:repos:" ++ joinComma ["a", "a,a"] = "gh:repos:" ++ joinComma ["a,a", "a"]
  simp only [joinComma]
  decide

/-- C6 witness: the comma-free lists `["x/y", "z/w"]` and its reversal
get distinct keys, and a successful write persists the timestamped
entry. -/
theorem cache_key_shape_and_order_sensitivity_witness :
    cacheKey ["x/y", "z/w"] = "gh:repos:" ++ joinComma ["x/y", "z/w"] ∧
    writeCache (fun _ => RawCell.absent) true 0 (cacheKey ["x/y", "z/w"]) []
      (cacheKey ["x/y", "z/w"]) = RawCell.value (ParseOutcome.parsed (some 0) []) ∧
    cacheKey ["x/y", "z/w"] ≠ cacheKey ["z/w", "x/y"] :=
  cache_key_shape_and_order_sensitivity ["x/y", "z/w"] ["x/y", "z/w"] ["z/w", "x/y"]
    (fun _ => RawCell.absent) 0 [] (List.Perm.swap "z/w" "x/y" []) (by decide)
    (by decide) (by decide)
